import Mathlib

/-!
Verification of the text-candidate classification and field-extraction engine
of the nutriai-scraper repository.

The definitions below are a shallow embedding of the per-element menu-item
extraction logic of `src/unlimited-scraper.js` (function
`extractCompleteRealMenu`, the `page.evaluate` body) together with the two
deduplication policies found in `src/unnamed/part_000`
(`extractAllMenuItems`, exact name+price dedup) and
`src/comprehensive-scraper.js` (`scrapePlatform`, fuzzy name-prefix dedup).

Texts are modelled as `List Char`.  JavaScript case-insensitive regex tests
whose patterns are alternations of literal phrases (with `.` as a one-char
wildcard) are modelled by `testAny` / `containsKw`; the ordered
currency-pattern price matcher is modelled by `findPrice` / `firstCapture`;
prices are exact decimals in `ℚ` (JS `parseFloat` on a `\d+(\.\d{1,2})?`
capture is exact).
-/

/-- ASCII lower-casing of one character, as JS `toLowerCase` / `/i` matching
acts on the ASCII letters occurring in the source's patterns. -/
def lc (c : Char) : Char :=
  if 'A' ≤ c ∧ c ≤ 'Z' then Char.ofNat (c.toNat + 32) else c

/-- JS `\s` whitespace (the characters relevant to the embedded texts). -/
def isSpc (c : Char) : Bool :=
  c == ' ' || c == '\t' || c == '\n' || c == '\r'

/-- JS regex word character (`\w`), used for `\b` boundaries. -/
def isWordChar (c : Char) : Bool :=
  ('a' ≤ c && c ≤ 'z') || ('A' ≤ c && c ≤ 'Z') || ('0' ≤ c && c ≤ '9') || c == '_'

/-- A keyword pattern: a literal phrase, where `none` is the regex `.`
(any single character other than a newline). -/
def kw (s : String) : List (Option Char) :=
  s.data.map (fun c => if c = '.' then none else some (lc c))

/-- Does the keyword pattern match at the head of the text (case-insensitively)? -/
def matchAtKw : List (Option Char) → List Char → Bool
  | [], _ => true
  | _ :: _, [] => false
  | some c :: ps, x :: xs => (lc x == c) && matchAtKw ps xs
  | none :: ps, x :: xs => (x != '\n') && matchAtKw ps xs

/-- Does the keyword pattern match anywhere in the text?  This is JS
`/pat/i.test(text)` for a single literal alternative. -/
def containsKw (ps : List (Option Char)) : List Char → Bool
  | [] => matchAtKw ps []
  | x :: xs => matchAtKw ps (x :: xs) || containsKw ps xs

/-- JS `/a|b|…/i.test(text)` for an alternation of literal phrases. -/
def testAny (ks : List String) (t : List Char) : Bool :=
  ks.any (fun s => containsKw (kw s) t)

/-- `\bveg\b` matching at the head of the text: the three letters "veg"
followed by a word boundary (the preceding boundary is checked by the
caller). -/
def vegAt : List Char → Bool
  | v :: e :: g :: rest =>
      lc v == 'v' && lc e == 'e' && lc g == 'g' &&
      (match rest with | [] => true | c :: _ => !isWordChar c)
  | _ => false

/-- Scan for `\bveg\b` keeping track of the previous character. -/
def hasVegWordAux (prev : Option Char) : List Char → Bool
  | [] => false
  | x :: xs =>
      ((match prev with | none => true | some p => !isWordChar p) && vegAt (x :: xs))
      || hasVegWordAux (some x) xs

/-- JS `/\bveg\b/i.test(text)`. -/
def hasVegWord (t : List Char) : Bool := hasVegWordAux none t

/-! ### Decimal parsing (`parseFloat` on a `\d+(\.\d{1,2})?` capture) -/

/-- Numeric value of a digit string. -/
def natOfDigits (ds : List Char) : Nat :=
  ds.foldl (fun a c => 10 * a + (c.toNat - '0'.toNat)) 0

/-- Exact decimal value of a captured numeric group `\d+(\.\d{1,2})?`:
`parseFloat` on `ip.fs` denotes the rational `(ip·10^|fs| + fs) / 10^|fs|`. -/
def parseDec (cs : List Char) : ℚ :=
  let ip := cs.takeWhile Char.isDigit
  let rest := cs.dropWhile Char.isDigit
  match rest with
  | '.' :: fs =>
      mkRat (natOfDigits ip * 10 ^ fs.length + natOfDigits fs) (10 ^ fs.length)
  | _ => mkRat (natOfDigits ip) 1

/-! ### The ordered price patterns

Each of the eight patterns of `extractCompleteRealMenu` has the shape
`preLit ⬝ ('.')? ⬝ \s* ⬝ (\d+(?:\.\d{1,2})?) ⬝ (\s* ⬝ postLit)?` with the
single capture group being the numeric part. -/

structure PricePat where
  preLit : List Char
  preOptDot : Bool
  preSpaces : Bool
  postLit : List Char
deriving DecidableEq, Repr

/-- Match a case-insensitive literal at the head of the text, returning the
remainder. -/
def matchLitCI : List Char → List Char → Option (List Char)
  | [], t => some t
  | _ :: _, [] => none
  | c :: cs, x :: xs => if lc x == c then matchLitCI cs xs else none

/-- The greedy candidate list for the capture group `\d+(?:\.\d{1,2})?` at the
head of the text, in JS backtracking priority order (longest fraction
first), each with the remaining text. -/
def numCandidates (t : List Char) : List (List Char × List Char) :=
  let ds := t.takeWhile Char.isDigit
  let rest := t.dropWhile Char.isDigit
  if ds.isEmpty then []
  else
    match rest with
    | '.' :: f1 :: f2 :: r2 =>
        if f1.isDigit && f2.isDigit then
          [(ds ++ ['.', f1, f2], r2), (ds ++ ['.', f1], f2 :: r2), (ds, rest)]
        else if f1.isDigit then
          [(ds ++ ['.', f1], f2 :: r2), (ds, rest)]
        else [(ds, rest)]
    | '.' :: f1 :: [] =>
        if f1.isDigit then [(ds ++ ['.', f1], []), (ds, rest)] else [(ds, rest)]
    | _ => [(ds, rest)]

/-- Try a price pattern anchored at the current position; return the captured
numeric group of the first (greediest) successful alternative. -/
def matchPriceAt (p : PricePat) (t : List Char) : Option (List Char) :=
  match matchLitCI p.preLit t with
  | none => none
  | some r1 =>
      let starts : List (List Char) :=
        if p.preOptDot then
          match r1 with
          | '.' :: r2 => [r2, r1]
          | _ => [r1]
        else [r1]
      starts.findSome? fun r2 =>
        let r3 := if p.preSpaces then r2.dropWhile isSpc else r2
        (numCandidates r3).findSome? fun nc =>
          if p.postLit.isEmpty then some nc.1
          else
            match matchLitCI p.postLit (nc.2.dropWhile isSpc) with
            | some _ => some nc.1
            | none => none

/-- JS `text.match(pattern)`: leftmost match of the pattern, returning the
captured numeric group. -/
def findPrice (p : PricePat) : List Char → Option (List Char)
  | [] => matchPriceAt p []
  | x :: xs =>
      match matchPriceAt p (x :: xs) with
      | some c => some c
      | none => findPrice p xs

/-- The eight price patterns of `extractCompleteRealMenu`, in source order:
`₹\s*(…)`, `rs\.?\s*(…)`, `\$\s*(…)`, `aed\s*(…)`, `sar\s*(…)`,
`(…)\s*₹`, `(…)\s*rs`, `(…)\s*only`. -/
def pricePatterns : List PricePat :=
  [ ⟨['₹'], false, true, []⟩,
    ⟨['r', 's'], true, true, []⟩,
    ⟨['$'], false, true, []⟩,
    ⟨['a', 'e', 'd'], false, true, []⟩,
    ⟨['s', 'a', 'r'], false, true, []⟩,
    ⟨[], false, false, ['₹']⟩,
    ⟨[], false, false, ['r', 's']⟩,
    ⟨[], false, false, ['o', 'n', 'l', 'y']⟩ ]

/-- The `for (const pattern of pricePatterns)` loop: the first pattern that
matches wins; its capture is parsed as a decimal; otherwise `none`. -/
def firstCapture (ps : List PricePat) (t : List Char) : Option ℚ :=
  match ps with
  | [] => none
  | p :: rest =>
      match findPrice p t with
      | some c => some (parseDec c)
      | none => firstCapture rest t

/-- The Price extractor of `extractCompleteRealMenu`. -/
def extractPrice (t : List Char) : Option ℚ := firstCapture pricePatterns t

/-! ### Category classification -/

/-- The ordered category rule table of `extractCompleteRealMenu`
(the if/else-if chain, top to bottom). -/
def categoryTable : List (List String × String) :=
  [ (["starter", "appetizer", "soup", "salad", "tikka", "kebab", "samosa",
      "pakora", "chaat", "cutlet", "finger food", "mezze", "tapas", "dim sum",
      "spring roll", "dumpling"], "starter"),
    (["dessert", "sweet", "ice cream", "cake", "kulfi", "gulab jamun",
      "rasmalai", "kheer", "halwa", "payasam", "rabri", "falooda", "brownie",
      "pastry", "mousse", "tart", "pie", "cheesecake", "pudding", "custard",
      "jelly", "sorbet", "gelato"], "dessert"),
    (["rice", "biryani", "pulao", "fried rice", "jeera rice", "coconut rice",
      "lemon rice", "steamed rice", "brown rice", "basmati"], "rice"),
    (["bread", "naan", "roti", "paratha", "kulcha", "chapati", "puri",
      "bhatura", "kulcha", "pita", "tortilla", "baguette", "ciabatta",
      "focaccia"], "bread"),
    (["dal", "curry", "gravy", "sabji", "subzi", "korma", "masala", "kadai",
      "palak", "matter", "aloo", "gobi", "bhindi", "baingan"], "curry"),
    (["drink", "beverage", "juice", "lassi", "tea", "coffee", "shake",
      "smoothie", "water", "soda", "cola", "lemonade", "mojito", "cocktail",
      "wine", "beer", "whiskey", "vodka", "gin", "rum", "champagne",
      "mocktail", "fresh lime", "coconut water"], "beverage"),
    (["pizza"], "pizza"),
    (["burger"], "burger"),
    (["pasta", "noodles", "spaghetti", "penne", "fusilli", "lasagna",
      "ravioli", "gnocchi", "linguine", "fettuccine", "ramen", "udon", "pho",
      "pad thai"], "pasta"),
    (["sandwich", "roll", "wrap", "sub", "panini", "club", "blt",
      "grilled cheese"], "snack") ]

/-- First-match evaluation of an ordered `(keyword set, label)` table, with
default label `"main"`. -/
def firstLabel (tbl : List (List String × String)) (t : List Char) : String :=
  match tbl with
  | [] => "main"
  | (ks, lbl) :: rest => if testAny ks t then lbl else firstLabel rest t

/-- The Category extractor of `extractCompleteRealMenu`. -/
def categoryOf (t : List Char) : String := firstLabel categoryTable t

/-! ### Spice level -/

def mildKws : List String := ["mild", "not spicy", "less spicy", "no spice", "bland"]

def mediumKws : List String := ["medium spicy", "moderately spicy", "medium heat"]

def spicyKws : List String :=
  ["spicy", "hot", "very spicy", "extra spicy", "fiery", "burning", "chili hot"]

def extraSpicyKws : List String :=
  ["extremely spicy", "super hot", "devil hot", "ghost pepper"]

/-- The Spice-level extractor of `extractCompleteRealMenu`: ordered checks
mild → medium → spicy → extra-spicy, first match wins, `none` otherwise. -/
def spiceLevelOf (t : List Char) : Option String :=
  if testAny mildKws t then some "mild"
  else if testAny mediumKws t then some "medium"
  else if testAny spicyKws t then some "spicy"
  else if testAny extraSpicyKws t then some "extra-spicy"
  else none

/-! ### Availability and popularity -/

/-- The negative-availability phrases of `extractCompleteRealMenu`. -/
def availNegKws : List String :=
  ["out of stock", "not available", "unavailable", "sold out",
   "temporarily unavailable", "coming soon", "seasonal", "limited time",
   "weekend only", "dinner only", "lunch only"]

/-- The Availability extractor: `!/…/i.test(lowerText)`. -/
def isAvailableOf (t : List Char) : Bool := !(testAny availNegKws t)

def popularKws : List String :=
  ["popular", "recommended", "bestseller", "chef special", "house special",
   "signature", "most ordered", "top rated", "customer favorite", "must try",
   "highly recommended", "award winning", "famous", "legendary", "authentic",
   "traditional", "classic", "premium", "deluxe", "royal", "special",
   "exclusive", "limited edition"]

def isPopularOf (t : List Char) : Bool := testAny popularKws t

/-! ### Dietary tags -/

def nonVegNegKws : List String :=
  ["non.veg", "chicken", "mutton", "fish", "egg", "meat", "beef", "lamb", "pork"]

def nonVegKws : List String :=
  ["non.veg", "non-veg", "chicken", "mutton", "fish", "meat", "egg", "beef",
   "lamb", "pork", "seafood", "prawn", "crab", "lobster"]

/-- The dietary-information extractor of `extractCompleteRealMenu`: eight
independent keyword checks pushed in source order. -/
def dietaryOf (t : List Char) : List String :=
  (if (hasVegWord t || containsKw (kw "vegetarian") t || containsKw (kw "veggie") t)
      && !(testAny nonVegNegKws t) then ["vegetarian"] else [])
  ++ (if testAny nonVegKws t then ["non-vegetarian"] else [])
  ++ (if testAny ["jain", "no onion", "no garlic"] t then ["jain"] else [])
  ++ (if testAny ["vegan"] t then ["vegan"] else [])
  ++ (if testAny ["gluten.free", "no gluten"] t then ["gluten-free"] else [])
  ++ (if testAny ["dairy.free", "no dairy", "lactose.free"] t then ["dairy-free"] else [])
  ++ (if testAny ["keto", "ketogenic", "low carb"] t then ["keto"] else [])
  ++ (if testAny ["organic", "natural", "farm fresh"] t then ["organic"] else [])

/-! ### Cuisine -/

def cuisineList : List String :=
  ["north indian", "south indian", "chinese", "italian", "mexican", "thai",
   "american", "continental", "arabic", "lebanese", "turkish", "iranian",
   "punjabi", "gujarati", "maharashtrian", "bengali", "rajasthani", "kerala",
   "tamil", "kashmiri", "hyderabadi", "lucknowi", "awadhi", "mughlai",
   "street food", "fast food", "mediterranean", "japanese", "korean",
   "vietnamese", "malaysian", "singaporean", "indonesian", "filipino",
   "greek", "french", "spanish", "german", "russian", "african", "moroccan",
   "egyptian", "ethiopian", "brazilian", "peruvian", "argentinian",
   "canadian", "australian"]

/-- Lower-cased character list of a string. -/
def lcStr (s : String) : List Char := s.data.map lc

/-- First cuisine alternative matching at the head of the text. -/
def firstKwAt (ks : List String) (t : List Char) : Option String :=
  ks.findSome? fun s => if (matchLitCI (lcStr s) t).isSome then some s else none

/-- The Cuisine extractor: leftmost match of the cuisine alternation, as
lowercase text. -/
def cuisineOf : List Char → Option String
  | [] => none
  | x :: xs =>
      match firstKwAt cuisineList (x :: xs) with
      | some s => some s
      | none => cuisineOf xs

/-! ### Candidate filter keyword groups of `extractCompleteRealMenu` -/

def foodKws : List String :=
  ["biryani", "curry", "dal", "rice", "naan", "roti", "chapati", "paratha",
   "kulcha", "pizza", "burger", "pasta", "noodles", "sandwich", "soup",
   "salad", "dessert", "cake", "ice cream", "juice", "lassi", "tea",
   "coffee", "chicken", "mutton", "paneer", "fish", "prawn", "crab",
   "lobster", "beef", "lamb", "pork", "egg", "vegetable", "potato",
   "cauliflower", "spinach", "okra", "peas", "beans", "corn", "carrot",
   "onion", "tomato", "garlic", "ginger", "chili", "pepper", "spice",
   "masala", "tandoor", "grilled", "fried", "roasted", "steamed", "boiled",
   "baked", "stuffed", "marinated", "glazed", "crispy", "creamy", "spicy",
   "mild", "sweet", "sour", "bitter", "salty", "tangy", "smoky", "fragrant",
   "aromatic", "fresh", "hot", "cold", "warm", "chilled", "frozen"]

def priceKws : List String :=
  ["₹", "rs", "rupees", "dollar", "$", "aed", "dirham", "sar", "riyal",
   "price", "cost", "charge", "rate", "bill", "amount", "total", "per plate",
   "per serving", "per piece", "per bowl", "per glass", "per cup",
   "starting from", "starting at", "from", "only", "just", "mere", "budget",
   "affordable", "premium", "expensive", "cheap", "value", "deal", "offer",
   "discount", "save", "free", "complimentary"]

def excludeKws : List String :=
  ["login", "signup", "register", "sign in", "sign up", "download",
   "install", "app store", "play store", "home", "about us", "contact us",
   "privacy policy", "terms", "conditions", "help", "support", "faq",
   "career", "job", "blog", "news", "press", "media", "investor", "partner",
   "advertise", "business", "merchant", "delivery partner",
   "restaurant partner", "cart", "checkout", "payment", "order history",
   "account", "profile", "settings", "logout", "search", "filter", "sort",
   "category", "collection", "cuisine", "location", "area", "city",
   "explore", "discover", "trending", "popular", "recommended", "featured",
   "top rated", "best", "new", "offer", "deal", "discount", "coupon",
   "promo", "code", "free delivery", "cashback", "wallet", "points",
   "reward", "refer", "invite", "share", "like", "follow", "subscribe",
   "notification", "alert", "banner", "advertisement", "ad", "sponsored",
   "popup", "modal", "overlay", "loading", "spinner", "error", "404", "500",
   "maintenance", "coming soon", "under construction", "footer", "header",
   "navigation", "navbar", "sidebar", "breadcrumb", "pagination", "page",
   "next", "previous", "back", "continue", "proceed", "submit", "cancel",
   "close", "ok", "yes", "no", "accept", "decline", "agree", "disagree",
   "select", "choose", "pick", "option", "dropdown", "checkbox", "radio",
   "button", "link", "tab", "menu", "submenu", "toggle", "collapse",
   "expand", "show", "hide", "view", "display", "render", "load", "refresh",
   "reload", "update", "edit", "delete", "remove", "add", "create", "save",
   "copy", "paste", "cut", "print", "export", "import", "upload",
   "download", "attachment", "file", "image", "photo", "video", "audio",
   "document", "pdf", "excel", "word", "powerpoint", "zip", "rar", "archive"]

/-! ### Name extraction -/

/-- Split a text on newline characters (JS `text.split('\n')`). -/
def splitNl : List Char → List (List Char)
  | [] => [[]]
  | c :: cs =>
      match splitNl cs with
      | [] => [[c]]
      | l :: ls => if c = '\n' then [] :: l :: ls else (c :: l) :: ls

/-- JS `String.prototype.trim` on the whitespace relevant here. -/
def trimWs (t : List Char) : List Char :=
  ((t.dropWhile isSpc).reverse.dropWhile isSpc).reverse

/-- The character class `[a-zA-Z0-9\s'&.,-]` kept by the name cleaner. -/
def allowedNameChar (c : Char) : Bool :=
  ('a' ≤ c && c ≤ 'z') || ('A' ≤ c && c ≤ 'Z') || ('0' ≤ c && c ≤ '9') ||
  isSpc c || c == '\'' || c == '&' || c == '.' || c == ',' || c == '-'

/-- JS `replace(/\s+/g, ' ')`: collapse every whitespace run to one space. -/
def collapseWs : List Char → List Char
  | [] => []
  | c :: cs =>
      if isSpc c && (match cs with | c2 :: _ => isSpc c2 | [] => false) then
        collapseWs cs
      else (if isSpc c then ' ' else c) :: collapseWs cs

/-- `itemName.replace(/[^a-zA-Z0-9\s'&.,-]/g, ' ').replace(/\s+/g, ' ').trim()`. -/
def cleanName (n : List Char) : List Char :=
  trimWs (collapseWs (n.map (fun c => if allowedNameChar c then c else ' ')))

/-- Join line fragments with single spaces (JS `Array.prototype.join(' ')`). -/
def joinSpace : List (List Char) → List Char
  | [] => []
  | [l] => l
  | l :: ls => l ++ ' ' :: joinSpace ls

/-! ### The assembled menu-item record of `extractCompleteRealMenu` -/

structure MenuItem where
  name : String
  description : String
  price : Option ℚ
  category : String
  cuisine : Option String
  dietaryInfo : List String
  spiceLevel : Option String
  isAvailable : Bool
  isPopular : Bool
deriving DecidableEq, Repr

/-- The per-fragment pipeline of `extractCompleteRealMenu`: length bounds,
the (food ∨ price) ∧ ¬exclude candidate filter, name extraction and
cleaning with its length guard, then the field extractors. -/
def extractMenuItem (text : String) : Option MenuItem :=
  let t := text.data
  if t.length < 4 || t.length > 800 then none
  else if (testAny foodKws t || testAny priceKws t) && !(testAny excludeKws t) then
    let linesF := (splitNl t).filter (fun l => (trimWs l).length > 0)
    let rawName := match linesF with
      | [] => trimWs (t.take 120)
      | l :: _ => trimWs l
    let itemName := cleanName rawName
    if 2 < itemName.length && itemName.length < 300 then
      let description :=
        if linesF.length > 1 then trimWs (joinSpace (linesF.drop 1))
        else if t.length > itemName.length + 15 then trimWs (t.drop itemName.length)
        else []
      some
        { name := String.mk itemName
          description := String.mk (description.take 500)
          price := extractPrice t
          category := categoryOf t
          cuisine := cuisineOf t
          dietaryInfo := dietaryOf t
          spiceLevel := spiceLevelOf t
          isAvailable := isAvailableOf t
          isPopular := isPopularOf t }
    else none
  else none

/-! ### Deduplication -/

/-- The `forEach`/`some`/`push` dedup loop shared by `extractAllMenuItems`
(`src/unnamed/part_000`) and `scrapePlatform` (`src/comprehensive-scraper.js`),
generic in the duplicate test: an item is appended iff no already-kept item
is its duplicate. -/
def dedupAux {α : Type} (dup : α → α → Bool) (acc : List α) : List α → List α
  | [] => acc
  | x :: xs =>
      if acc.any (fun ex => dup x ex) then dedupAux dup acc xs
      else dedupAux dup (acc ++ [x]) xs

def dedupBy {α : Type} (dup : α → α → Bool) (xs : List α) : List α :=
  dedupAux dup [] xs

/-- ExactKey duplicate test of `extractAllMenuItems`:
`existing.name.toLowerCase() === item.name.toLowerCase() &&
existing.price === item.price`. -/
def exactKeyDup (item existing : MenuItem) : Bool :=
  (lcStr existing.name == lcStr item.name) && (existing.price == item.price)

/-- A restaurant record as pushed by `scrapePlatform` in
`src/comprehensive-scraper.js`. -/
structure Restaurant where
  name : String
  platform : String
  platformId : String
  city : String
  country : String
  rating : Option ℚ
  cuisineTypes : List String
  deliveryTime : Option String
  fullText : String
deriving DecidableEq, Repr

/-- JS `String.prototype.includes` on character lists. -/
def isSub (p : List Char) : List Char → Bool
  | [] => p.isEmpty
  | x :: xs => p.isPrefixOf (x :: xs) || isSub p xs

/-- FuzzyPrefix duplicate test of `scrapePlatform`: lower-cased names equal,
or both longer than 8 and one contains the first 6 characters of the
other. -/
def fuzzyPrefixDup (item existing : Restaurant) : Bool :=
  let n1 := lcStr item.name
  let n2 := lcStr existing.name
  (n1 == n2) ||
    (decide (n1.length > 8) && decide (n2.length > 8) &&
      (isSub (n2.take 6) n1 || isSub (n1.take 6) n2))

/-! ### Concrete fixtures -/

def butterChickenText : String := "Butter Chicken ₹299 (was Rs.350)"

def biryaniGulabText : String := "Chicken Biryani with Gulab Jamun"

def orderBiryaniText : String := "Order Biryani Now - Login to continue"

def margheritaText : String :=
  "Classic Margherita Pizza\nFresh mozzarella and basil\n$12.99"

def paneerTikkaText : String := "Paneer Tikka - Spicy starter, serves 2"

/-- The record `extractMenuItem` produces for `margheritaText`. -/
def margheritaRec : MenuItem :=
  { name := "Classic Margherita Pizza"
    description := "Fresh mozzarella and basil $12.99"
    price := some (mkRat 1299 100)
    category := "beverage"
    cuisine := none
    dietaryInfo := []
    spiceLevel := none
    isAvailable := true
    isPopular := true }

/-- The record `extractMenuItem` produces for `paneerTikkaText`. -/
def paneerTikkaRec : MenuItem :=
  { name := "Paneer Tikka - Spicy starter, serves 2"
    description := ""
    price := none
    category := "starter"
    cuisine := none
    dietaryInfo := []
    spiceLevel := some "spicy"
    isAvailable := true
    isPopular := false }

/-- The invariant maintained by the dedup loop: read against the already-kept
prefix `acc`, every element of the list is not a duplicate of any element
kept before it. -/
def goodFrom {α : Type} (d : α → α → Bool) (acc : List α) : List α → Prop
  | [] => True
  | x :: xs => acc.any (fun ex => d x ex) = false ∧ goodFrom d (acc ++ [x]) xs

/-- Dedup order-preservation fixture: record A. -/
def dosaRec : MenuItem :=
  ⟨"Dosa", "", some 50, "main", none, [], none, true, false⟩

/-- Dedup order-preservation fixture: record B, no duplicate of A. -/
def idliRec : MenuItem :=
  ⟨"Idli", "", some 30, "main", none, [], none, true, false⟩

/-- Dedup order-preservation fixture: record A', an ExactKey duplicate of A
(same name up to case, same price). -/
def dosaDupRec : MenuItem :=
  ⟨"DOSA", "", some 50, "main", none, [], none, true, false⟩

/-! ## Helper lemmas -/

theorem testAny_of_mem {s : String} {ks : List String} {t : List Char}
    (hm : s ∈ ks) (h : containsKw (kw s) t = true) : testAny ks t = true := by
  simp only [testAny, List.any_eq_true]
  exact ⟨s, hm, h⟩

theorem containsKw_false_of_testAny_false {s : String} {ks : List String}
    {t : List Char} (hm : s ∈ ks) (h : testAny ks t = false) :
    containsKw (kw s) t = false := by
  cases hcs : containsKw (kw s) t with
  | false => rfl
  | true => rw [testAny_of_mem hm hcs] at h; exact absurd h (by simp)

theorem matchAtKw_append_drop {p q : List (Option Char)} :
    ∀ {t : List Char}, matchAtKw (p ++ q) t = true →
      matchAtKw q (t.drop p.length) = true := by
  induction p with
  | nil => intro t h; simpa using h
  | cons oc ps ih =>
      intro t h
      match oc, t with
      | some c, [] => simp [matchAtKw] at h
      | none, [] => simp [matchAtKw] at h
      | some c, x :: xs =>
          simp only [List.cons_append, matchAtKw, Bool.and_eq_true] at h
          simpa using ih h.2
      | none, x :: xs =>
          simp only [List.cons_append, matchAtKw, Bool.and_eq_true] at h
          simpa using ih h.2

theorem containsKw_of_matchAt_drop {q : List (Option Char)} :
    ∀ (k : Nat) (t : List Char), matchAtKw q (t.drop k) = true →
      containsKw q t = true := by
  intro k
  induction k with
  | zero => intro t h; cases t with
      | nil => simpa [containsKw] using h
      | cons x xs => simp only [containsKw]; rw [List.drop_zero] at h; simp [h]
  | succ n ih =>
      intro t h
      cases t with
      | nil => simpa [containsKw] using h
      | cons x xs =>
          simp only [containsKw]
          rw [List.drop_succ_cons] at h
          rw [ih xs h]
          simp

theorem containsKw_append_right {p q : List (Option Char)} {t : List Char}
    (h : containsKw (p ++ q) t = true) : containsKw q t = true := by
  induction t with
  | nil =>
      simp only [containsKw] at h ⊢
      have hpq : p ++ q = [] := by
        cases hc : p ++ q with
        | nil => rfl
        | cons a as => rw [hc] at h; simp [matchAtKw] at h
      rw [(List.append_eq_nil.mp hpq).2]
      rfl
  | cons x xs ih =>
      simp only [containsKw, Bool.or_eq_true] at h
      rcases h with h | h
      · exact containsKw_of_matchAt_drop p.length (x :: xs) (matchAtKw_append_drop h)
      · simp only [containsKw, Bool.or_eq_true]
        exact Or.inr (ih h)

theorem firstCapture_eq (ps : List PricePat) (t : List Char) :
    firstCapture ps t = (ps.findSome? fun p => findPrice p t).map parseDec := by
  induction ps with
  | nil => rfl
  | cons p rest ih =>
      unfold firstCapture
      cases h : findPrice p t with
      | some c => simp [List.findSome?, h]
      | none => simp [List.findSome?, h, ih]

theorem firstLabel_eq (tbl : List (List String × String)) (t : List Char) :
    firstLabel tbl t = ((tbl.find? fun row => testAny row.1 t).map Prod.snd).getD "main" := by
  induction tbl with
  | nil => rfl
  | cons row rest ih =>
      obtain ⟨ks, lbl⟩ := row
      unfold firstLabel
      cases h : testAny ks t with
      | true => simp [List.find?, h]
      | false => simp [List.find?, h, ih]

theorem dedupAux_of_good {α : Type} (d : α → α → Bool) :
    ∀ (l acc : List α), goodFrom d acc l → dedupAux d acc l = acc ++ l := by
  intro l
  induction l with
  | nil => intro acc _; simp [dedupAux]
  | cons x xs ih =>
      intro acc h
      obtain ⟨h1, h2⟩ := h
      unfold dedupAux
      rw [h1]
      simp only [Bool.false_eq_true, if_false]
      rw [ih (acc ++ [x]) h2]
      simp

theorem goodFrom_push {α : Type} (d : α → α → Bool) :
    ∀ (acc k : List α) (x : α), goodFrom d k acc →
      ((k ++ acc).any (fun ex => d x ex)) = false → goodFrom d k (acc ++ [x]) := by
  intro acc
  induction acc with
  | nil => intro k x _ h2; exact ⟨by simpa using h2, trivial⟩
  | cons a as ih =>
      intro k x h h2
      obtain ⟨h1, hrest⟩ := h
      refine ⟨h1, ?_⟩
      apply ih (k ++ [a]) x hrest
      simpa [List.append_assoc] using h2

theorem goodFrom_dedupAux {α : Type} (d : α → α → Bool) :
    ∀ (l acc : List α), goodFrom d [] acc → goodFrom d [] (dedupAux d acc l) := by
  intro l
  induction l with
  | nil => intro acc h; simpa [dedupAux] using h
  | cons x xs ih =>
      intro acc h
      unfold dedupAux
      cases hc : acc.any (fun ex => d x ex) with
      | true => simp only [if_true]; exact ih acc h
      | false =>
          simp only [Bool.false_eq_true, if_false]
          exact ih (acc ++ [x]) (goodFrom_push d acc [] x h (by simpa using hc))

theorem dedupBy_idem {α : Type} (d : α → α → Bool) (xs : List α) :
    dedupBy d (dedupBy d xs) = dedupBy d xs := by
  have g : goodFrom d [] (dedupAux d [] xs) := goodFrom_dedupAux d xs [] trivial
  have h := dedupAux_of_good d (dedupAux d [] xs) [] g
  simpa [dedupBy] using h

theorem dedupAux_sublist {α : Type} (d : α → α → Bool) :
    ∀ (l acc : List α), (dedupAux d acc l).Sublist (acc ++ l) := by
  intro l
  induction l with
  | nil => intro acc; simpa [dedupAux] using List.Sublist.refl acc
  | cons x xs ih =>
      intro acc
      unfold dedupAux
      cases hc : acc.any (fun ex => d x ex) with
      | true =>
          simp only [if_true]
          refine (ih acc).trans ?_
          exact (List.append_sublist_append_left acc).mpr (List.sublist_cons_self x xs)
      | false =>
          simp only [Bool.false_eq_true, if_false]
          simpa using ih (acc ++ [x])

/-! ## Claim theorems -/

/-- C1: the Price extractor tries its currency patterns in the fixed source
order, returns the parsed capture of the first matching pattern, returns
`none` when no pattern matches, and extracts 299 from
"Butter Chicken ₹299 (was Rs.350)". -/
theorem price_priority_first_match :
    (∀ ps t, firstCapture ps t = (ps.findSome? fun p => findPrice p t).map parseDec) ∧
    (∀ t, extractPrice t = none ↔ ∀ p ∈ pricePatterns, findPrice p t = none) ∧
    extractPrice butterChickenText.data = some 299 := by
  refine ⟨firstCapture_eq, fun t => ?_, by decide⟩
  rw [extractPrice, firstCapture_eq]
  simp [Option.map_eq_none', List.findSome?_eq_none_iff]

/-- C2: the Category extractor is first-match evaluation of its ordered rule
table with default "main", the table rows are in the canonical order
starter → dessert → rice → bread → curry → beverage → pizza → burger →
pasta → snack, and "Chicken Biryani with Gulab Jamun" is classified
"dessert" (the dessert row precedes the rice row). -/
theorem category_table_first_row :
    (∀ tbl t, firstLabel tbl t =
      ((tbl.find? fun row => testAny row.1 t).map Prod.snd).getD "main") ∧
    categoryTable.map Prod.snd =
      ["starter", "dessert", "rice", "bread", "curry", "beverage", "pizza",
       "burger", "pasta", "snack"] ∧
    categoryOf biryaniGulabText.data = "dessert" := by
  exact ⟨firstLabel_eq, by decide, by decide⟩

/-- C3: a fragment matching any exclusion keyword produces no record, no
matter what positive keywords it also contains. -/
theorem exclusion_precedes_inclusion (text : String)
    (h : testAny excludeKws text.data = true) : extractMenuItem text = none := by
  simp [extractMenuItem, h]

/-- Witness for C3: "Order Biryani Now - Login to continue" contains a food
keyword yet matches an exclusion keyword, and is rejected. -/
theorem exclusion_precedes_inclusion_witness :
    testAny excludeKws orderBiryaniText.data = true ∧
    testAny foodKws orderBiryaniText.data = true ∧
    extractMenuItem orderBiryaniText = none :=
  ⟨by decide, by decide, exclusion_precedes_inclusion orderBiryaniText (by decide)⟩

/-- C4: the spice checks run mild → medium → spicy → extra-spicy with first
match winning, so any text containing both "mild" and "very spicy" is
labeled "mild". -/
theorem spice_mild_before_spicy (t : List Char)
    (h1 : containsKw (kw "mild") t = true)
    (h2 : containsKw (kw "very spicy") t = true) :
    spiceLevelOf t = some "mild" := by
  have hm : testAny mildKws t = true := testAny_of_mem (by simp [mildKws]) h1
  simp [spiceLevelOf, hm]

/-- Witness for C4 at the text "mild but very spicy". -/
theorem spice_mild_before_spicy_witness :
    containsKw (kw "mild") "mild but very spicy".data = true ∧
    containsKw (kw "very spicy") "mild but very spicy".data = true ∧
    spiceLevelOf "mild but very spicy".data = some "mild" :=
  ⟨by decide, by decide,
   spice_mild_before_spicy "mild but very spicy".data (by decide) (by decide)⟩

/-- C5 counterexample: "seasonal dish" contains none of the five phrases the
claim lists, yet the Availability extractor returns `false` for it (the
source list also contains "seasonal", "limited time", "weekend only",
"dinner only", "lunch only" and "not available"). -/
theorem availability_claim_counterexample :
    isAvailableOf "seasonal dish".data = false ∧
    (["out of stock", "sold out", "unavailable", "temporarily unavailable",
      "coming soon"].all
        (fun p => !(containsKw (kw p) "seasonal dish".data))) = true := by
  exact ⟨by decide, by decide⟩

/-- C5 amended: the Availability extractor returns `true` by default and
returns `false` exactly when one of the eleven phrases of the source list
("out of stock", "not available", "unavailable", "sold out",
"temporarily unavailable", "coming soon", "seasonal", "limited time",
"weekend only", "dinner only", "lunch only") occurs in the text. -/
theorem availability_flip_phrases :
    ∀ t : List Char,
      isAvailableOf t = false ↔ ∃ p ∈ availNegKws, containsKw (kw p) t = true := by
  intro t
  simp [isAvailableOf, testAny, List.any_eq_true]

/-- C6: deduplication is idempotent under both the ExactKey policy (menu
items, case-insensitive name plus exact price) and the FuzzyPrefix policy
(restaurants, lower-cased name equality or mutual 6-character-prefix
containment above length 8). -/
theorem dedup_idempotent :
    (∀ xs : List MenuItem,
      dedupBy exactKeyDup (dedupBy exactKeyDup xs) = dedupBy exactKeyDup xs) ∧
    (∀ xs : List Restaurant,
      dedupBy fuzzyPrefixDup (dedupBy fuzzyPrefixDup xs) = dedupBy fuzzyPrefixDup xs) :=
  ⟨dedupBy_idem exactKeyDup, dedupBy_idem fuzzyPrefixDup⟩

/-- C7: for any duplicate test, dedup returns an order-preserving
subsequence of its input, and on `[A, B, A']` with `A'` a duplicate of `A`
and `B` no duplicate of `A` it returns exactly `[A, B]`. -/
theorem dedup_first_occurrence {α : Type} (d : α → α → Bool) :
    (∀ xs : List α, (dedupBy d xs).Sublist xs) ∧
    (∀ A B A2 : α, d B A = false → d A2 A = true →
      dedupBy d [A, B, A2] = [A, B]) := by
  constructor
  · intro xs
    simpa using dedupAux_sublist d xs []
  · intro A B A2 h1 h2
    simp [dedupBy, dedupAux, h1, h2]

/-- Witness for C7 under the ExactKey policy on concrete records. -/
theorem dedup_first_occurrence_witness :
    exactKeyDup idliRec dosaRec = false ∧
    exactKeyDup dosaDupRec dosaRec = true ∧
    dedupBy exactKeyDup [dosaRec, idliRec, dosaDupRec] = [dosaRec, idliRec] :=
  ⟨by decide, by decide,
   (dedup_first_occurrence exactKeyDup).2 dosaRec idliRec dosaDupRec
     (by decide) (by decide)⟩

/-- C8 counterexample: on the round-trip fixture the pipeline yields
description "Fresh mozzarella and basil $12.99" (the price line is joined
into the description) and category "beverage" (the beverage row fires on
the substring "lassi" of "Classic" before the pizza row is reached), so
the claimed record fields description = "Fresh mozzarella and basil" and
category = "pizza" are both wrong. -/
theorem roundtrip_counterexample :
    (extractMenuItem margheritaText).map (fun r => (r.description, r.category)) =
      some ("Fresh mozzarella and basil $12.99", "beverage") ∧
    ("Fresh mozzarella and basil $12.99" ≠ "Fresh mozzarella and basil" ∧
     "beverage" ≠ "pizza") := by
  exact ⟨by decide, by decide, by decide⟩

/-- C8 amended: the fixture "Classic Margherita Pizza\nFresh mozzarella and
basil\n$12.99" yields name "Classic Margherita Pizza", description
"Fresh mozzarella and basil $12.99", price 12.99 and category
"beverage". -/
theorem roundtrip_amended :
    extractMenuItem margheritaText = some margheritaRec ∧
    margheritaRec.name = "Classic Margherita Pizza" ∧
    margheritaRec.description = "Fresh mozzarella and basil $12.99" ∧
    margheritaRec.price = some ((1299 : ℚ) / 100) ∧
    margheritaRec.category = "beverage" := by
  refine ⟨by decide, rfl, rfl, ?_, rfl⟩
  norm_num [margheritaRec, Rat.mkRat_eq_div]

/-- C9 counterexample: "Paneer Tikka - Spicy starter, serves 2" contains no
"veg" keyword, so the record's dietary set does not contain
"vegetarian". -/
theorem paneer_counterexample :
    (extractMenuItem paneerTikkaText).map
      (fun r => r.dietaryInfo.contains "vegetarian") = some false := by
  decide

/-- C9 amended: the fragment yields category "starter" and spice level
"spicy" as claimed, but its dietary-information set is empty (in
particular it does not contain "vegetarian"). -/
theorem paneer_amended :
    extractMenuItem paneerTikkaText = some paneerTikkaRec ∧
    paneerTikkaRec.category = "starter" ∧
    paneerTikkaRec.spiceLevel = some "spicy" ∧
    paneerTikkaRec.dietaryInfo = [] := by
  exact ⟨by decide, rfl, rfl, rfl⟩

/-- C10 counterexample: "bland super hot" contains the extra-spicy trigger
"super hot" but is labeled "mild" (the mild row fires on "bland"), not
"spicy" as the claim asserts. -/
theorem extra_spicy_counterexample :
    containsKw (kw "super hot") "bland super hot".data = true ∧
    spiceLevelOf "bland super hot".data = some "mild" ∧
    (some "mild" : Option String) ≠ some "spicy" := by
  exact ⟨by decide, by decide, by decide⟩

/-- C10 amended: "extra-spicy" is returned only for texts containing
"ghost pepper" while matching none of the mild, medium or spicy patterns;
a text containing "extremely spicy", "super hot" or "devil hot" always
matches the spicy check, is never labeled "extra-spicy", and is labeled
"spicy" unless the earlier mild or medium check matches. -/
theorem extra_spicy_amended :
    (∀ t, spiceLevelOf t = some "extra-spicy" →
      containsKw (kw "ghost pepper") t = true ∧ testAny mildKws t = false ∧
      testAny mediumKws t = false ∧ testAny spicyKws t = false) ∧
    (∀ t, (containsKw (kw "extremely spicy") t = true ∨
           containsKw (kw "super hot") t = true ∨
           containsKw (kw "devil hot") t = true) →
      spiceLevelOf t ≠ some "extra-spicy" ∧
      (testAny mildKws t = false → testAny mediumKws t = false →
        spiceLevelOf t = some "spicy")) := by
  have hes : ∀ t : List Char, containsKw (kw "extremely spicy") t = true →
      containsKw (kw "spicy") t = true := by
    intro t h
    have hd : kw "extremely spicy" = kw "extremely " ++ kw "spicy" := by decide
    rw [hd] at h
    exact containsKw_append_right h
  have hsh : ∀ t : List Char, containsKw (kw "super hot") t = true →
      containsKw (kw "hot") t = true := by
    intro t h
    have hd : kw "super hot" = kw "super " ++ kw "hot" := by decide
    rw [hd] at h
    exact containsKw_append_right h
  have hdh : ∀ t : List Char, containsKw (kw "devil hot") t = true →
      containsKw (kw "hot") t = true := by
    intro t h
    have hd : kw "devil hot" = kw "devil " ++ kw "hot" := by decide
    rw [hd] at h
    exact containsKw_append_right h
  have hspicyT : ∀ t : List Char, (containsKw (kw "extremely spicy") t = true ∨
      containsKw (kw "super hot") t = true ∨
      containsKw (kw "devil hot") t = true) → testAny spicyKws t = true := by
    intro t h
    rcases h with h | h | h
    · exact testAny_of_mem (by simp [spicyKws]) (hes t h)
    · exact testAny_of_mem (by simp [spicyKws]) (hsh t h)
    · exact testAny_of_mem (by simp [spicyKws]) (hdh t h)
  constructor
  · intro t h
    unfold spiceLevelOf at h
    cases h1 : testAny mildKws t with
    | true => rw [h1] at h; simp at h
    | false =>
    rw [h1] at h
    cases h2 : testAny mediumKws t with
    | true => rw [h2] at h; simp at h
    | false =>
    rw [h2] at h
    cases h3 : testAny spicyKws t with
    | true => rw [h3] at h; simp at h
    | false =>
    rw [h3] at h
    cases h4 : testAny extraSpicyKws t with
    | false => rw [h4] at h; simp at h
    | true =>
    refine ⟨?_, rfl, rfl, rfl⟩
    have hcs : containsKw (kw "spicy") t = false :=
      containsKw_false_of_testAny_false (show "spicy" ∈ spicyKws by simp [spicyKws]) h3
    have hch : containsKw (kw "hot") t = false :=
      containsKw_false_of_testAny_false (show "hot" ∈ spicyKws by simp [spicyKws]) h3
    simp only [testAny, extraSpicyKws, List.any_cons, List.any_nil,
      Bool.or_eq_true, Bool.or_false] at h4
    rcases h4 with h4 | h4 | h4 | h4
    · rw [hes t h4] at hcs; exact Bool.noConfusion hcs
    · rw [hsh t h4] at hch; exact Bool.noConfusion hch
    · rw [hdh t h4] at hch; exact Bool.noConfusion hch
    · exact h4
  · intro t h
    have hs := hspicyT t h
    constructor
    · unfold spiceLevelOf
      cases h1 : testAny mildKws t with
      | true => simp
      | false =>
      cases h2 : testAny mediumKws t with
      | true => simp
      | false => rw [hs]; simp
    · intro h1 h2
      unfold spiceLevelOf
      rw [h1, h2, hs]
      simp

/-- Witness for the amended C10: "ghost pepper" is labeled extra-spicy and
satisfies the characterization, and "super hot dish" is labeled "spicy",
not "extra-spicy". -/
theorem extra_spicy_amended_witness :
    (containsKw (kw "ghost pepper") "ghost pepper".data = true ∧
     testAny mildKws "ghost pepper".data = false ∧
     testAny mediumKws "ghost pepper".data = false ∧
     testAny spicyKws "ghost pepper".data = false) ∧
    (spiceLevelOf "super hot dish".data ≠ some "extra-spicy" ∧
     spiceLevelOf "super hot dish".data = some "spicy") :=
  ⟨extra_spicy_amended.1 "ghost pepper".data (by decide),
   ⟨(extra_spicy_amended.2 "super hot dish".data (Or.inr (Or.inl (by decide)))).1,
    (extra_spicy_amended.2 "super hot dish".data (Or.inr (Or.inl (by decide)))).2
      (by decide) (by decide)⟩⟩
